import Mathlib

set_option maxRecDepth 8000

/-!
Shallow embedding of the `disk_spin_manager` repository (Rust), covering:
- `src/lsblk.rs`: block-device enumeration via the `lsblk` listing helper;
- `src/watch.rs`: `match_base_path`, resolving event paths to configured roots;
- `src/disk_status.rs`: the hdparm power-state probe, `update_disk_status`,
  and `disk_status_loop`;
- `src/metrics.rs`: the sysfs enumeration (`filter_map_disk` / `get_all_disks`)
  and `DiskMonitor::update_metrics` registry updates.

Rust machine details are modelled as follows: `f64` gauge values (only `0.0`
and `1.0` occur, and they are only stored and compared, never computed with)
become `ℚ`; `anyhow::Error` values whose payload no claim inspects become
`Unit`; fallible Rust functions returning `Result` become `Except`;
filesystem paths handled by `Path::starts_with` (component-wise prefix)
become `List String` of components.
-/

namespace DiskSpin

/-! ## `src/lsblk.rs` -/

/-- A parsed `lsblk` block-device record (struct `Disk` in `lsblk.rs`):
`{name, type (renamed disk_type), rota}`. -/
structure Disk where
  name : String
  disk_type : String
  rota : Bool
deriving DecidableEq, Repr

namespace Lsblk

/-- The closure inside `lsblk.rs::get_all_disks`'s `filter_map`: drop records
with `rota == false`, keep records with `type == "disk"` as `/dev/{name}`,
drop every other type. -/
def filterDisk (disk : Disk) : Option String :=
  if !disk.rota then
    none
  else
    match disk.disk_type with
    | "disk" => some ("/dev/" ++ disk.name)
    | _ => none

/-- `lsblk.rs::get_all_disks`, after the external command and JSON parsing
(both out of scope for the claims) produced a record list: `filter_map` of
`filterDisk` over the records. -/
def get_all_disks (records : List Disk) : List String :=
  records.filterMap filterDisk

end Lsblk

/-! ## `src/watch.rs` -/

/-- A filesystem path, as compared by Rust's `Path::starts_with`: a list of
components. -/
abbrev FsPath := List String

/-- The payload of the `bail!` in `match_base_path`: the event paths and the
full configured base-path list, in that order (mirroring the format string
`"... paths: {:?}, base_paths: {:?}"`). -/
structure ResolutionError where
  paths : List FsPath
  base_paths : List FsPath
deriving DecidableEq, Repr

/-- The inner loop of `watch.rs::match_base_path`: some affected event path
is contained in `base`, i.e. `event_path.starts_with(base)` holds for some
`event_path` in `paths`. -/
def rootMatches (paths : List FsPath) (base : FsPath) : Bool :=
  paths.any (fun p => base.isPrefixOf p)

/-- `watch.rs::match_base_path`: for each base path in configuration order,
for each event path, if the event path starts with the base, return that
base; otherwise fail with a `ResolutionError` carrying the event paths and
the base-path list. The nested `for` loops return the first base (in
`base_paths` order) for which some event path matches, which is exactly
`List.find?`. -/
def match_base_path (base_paths : List FsPath) (paths : List FsPath) :
    Except ResolutionError FsPath :=
  match base_paths.find? (rootMatches paths) with
  | some base => .ok base
  | none => .error ⟨paths, base_paths⟩

/-! ## Rust string primitives

Structural (kernel-evaluable) models of the Rust standard-library string
operations the sources use: `str::trim`, `str::contains`, and lexicographic
string comparison. -/

/-- Rust `str::trim`: the string with leading and trailing whitespace
removed. -/
def rustTrim (s : String) : String :=
  ⟨((s.data.dropWhile Char.isWhitespace).reverse.dropWhile
      Char.isWhitespace).reverse⟩

/-- Lexicographic comparison of character lists (by code point), the order
in which a metrics exposition sorts label values. -/
def leChars : List Char → List Char → Bool
  | [], _ => true
  | _ :: _, [] => false
  | a :: as, b :: bs =>
    if a < b then true
    else if b < a then false
    else leChars as bs

/-- Lexicographic `≤` on strings. -/
def strLe (a b : String) : Bool :=
  leChars a.data b.data

/-- Rust `str::starts_with` with a string pattern: `pre` is a prefix of
`s`. -/
def rustStartsWith (s pre : String) : Bool :=
  pre.data.isPrefixOf s.data

/-! ## `src/disk_status.rs` -/

/-- Substring containment on `List Char`, the semantics of Rust's
`str::contains` with a string pattern: some suffix of `s` has `pat` as a
prefix. -/
def containsSub (pat : List Char) : List Char → Bool
  | [] => pat.isPrefixOf ([] : List Char)
  | c :: rest => pat.isPrefixOf (c :: rest) || containsSub pat rest

/-- Rust `s.contains(pat)` for strings. -/
def strContains (s pat : String) : Bool :=
  containsSub pat.data s.data

/-- The captured output of the external `hdparm` process: its exit status
(`success`) and its standard output, decoded to a string. -/
structure CmdOutput where
  success : Bool
  stdout : String
deriving DecidableEq, Repr

/-- `Hdparm::get_disk_status` in `disk_status.rs`, as a function of the
outcome of running `hdparm -C <disk>`: `.error` when the command failed to
execute; `bail!` (also `.error`) when it exited unsuccessfully; otherwise
`Some 0.0` if stdout contains `"standby"`, else `Some 1.0` if it contains
`"active/idle"`, else `None`. -/
def hdparm_get_disk_status (output : Except Unit CmdOutput) :
    Except Unit (Option ℚ) :=
  match output with
  | .error e => .error e
  | .ok o =>
    if !o.success then
      .error ()
    else if strContains o.stdout "standby" then
      .ok (some 0)
    else if strContains o.stdout "active/idle" then
      .ok (some 1)
    else
      .ok none

/-- A `MetricMessage::DiskStatus { disk, status }` message. -/
structure DiskStatusMsg where
  disk : String
  status : ℚ
deriving DecidableEq, Repr

/-- The `for disk in all_disks` loop of `update_disk_status`: probe each disk
in order; a probe error (after `.context`) aborts via `?`; an `Ok(None)`
result sends nothing; an `Ok(Some status)` result sends a `DiskStatus`
message over the channel, whose `send` can itself fail and abort via `?`.
Returns the messages successfully placed on the channel and the loop's
`Result`. -/
def send_statuses (probe : String → Except Unit (Option ℚ))
    (send : DiskStatusMsg → Except Unit Unit) :
    List String → List DiskStatusMsg × Except Unit Unit
  | [] => ([], .ok ())
  | disk :: rest =>
    match probe disk with
    | .error e => ([], .error e)
    | .ok none => send_statuses probe send rest
    | .ok (some status) =>
      match send ⟨disk, status⟩ with
      | .error e => ([], .error e)
      | .ok _ =>
        (⟨disk, status⟩ :: (send_statuses probe send rest).1,
         (send_statuses probe send rest).2)

/-- `disk_status.rs::update_disk_status`: list all disks via the lsblk
helper (a failure aborts via `?`), then run the send loop over them. The
external command / JSON layer is abstracted as the already-parsed record
list or its error. -/
def update_disk_status (probe : String → Except Unit (Option ℚ))
    (send : DiskStatusMsg → Except Unit Unit)
    (lsblk : Except Unit (List Disk)) :
    List DiskStatusMsg × Except Unit Unit :=
  match lsblk with
  | .error e => ([], .error e)
  | .ok records => send_statuses probe send (Lsblk.get_all_disks records)

/-- The environment one iteration of `disk_status_loop` runs against: the
lsblk listing outcome, the per-disk probe outcomes, and the channel send
outcomes during that cycle. -/
structure CycleEnv where
  lsblk : Except Unit (List Disk)
  probe : String → Except Unit (Option ℚ)
  send : DiskStatusMsg → Except Unit Unit

/-- `disk_status.rs::disk_status_loop`, run against a (finite prefix of a)
sequence of per-cycle environments: each iteration calls
`update_disk_status`; on `Err` the loop logs and `return`s immediately,
otherwise it sleeps and continues. The value is the full trace of messages
placed on the channel. -/
def disk_status_loop : List CycleEnv → List DiskStatusMsg
  | [] => []
  | env :: rest =>
    match (update_disk_status env.probe env.send env.lsblk).2 with
    | .error _ => (update_disk_status env.probe env.send env.lsblk).1
    | .ok _ =>
      (update_disk_status env.probe env.send env.lsblk).1 ++
        disk_status_loop rest

/-! ## `src/metrics.rs` -/

namespace Metrics

/-- What reading the `queue/rotational` attribute of a sysfs block entry can
yield: the file does not exist; `fs::read_to_string` fails; or it succeeds
with some content. -/
inductive RotationalAttr where
  | missing
  | readError
  | content (value : String)
deriving DecidableEq, Repr

/-- One directory entry under `<sysfs>/block`: its file name and its
`queue/rotational` attribute. (`read_dir` entries always carry a file name,
so the `entry.file_name() == None` branch of the source is unreachable
here.) -/
structure SysEntry where
  name : String
  rotational : RotationalAttr
deriving DecidableEq, Repr

/-- `metrics.rs::filter_map_disk`: skip the entry when the rotational
attribute file is missing; propagate a read error as `Some(Err(..))`; trim
the content (`v.trim()`); skip on `"0"` or any value other than `"1"`; on
`"1"`, skip entries whose name does not start with `"sd"` and keep the rest
as `/dev/{name}`. -/
def filter_map_disk (entry : SysEntry) : Option (Except Unit String) :=
  match entry.rotational with
  | .missing => none
  | .readError => some (.error ())
  | .content value =>
    match rustTrim value with
    | "0" => none
    | "1" =>
      if !rustStartsWith entry.name "sd" then
        none
      else
        some (.ok ("/dev/" ++ entry.name))
    | _ => none

/-- The spec's per-entry acceptance condition for strategy (a), stated in
the spec's own words for comparison against `filter_map_disk`: the
rotational attribute file exists, reads exactly "1" after trimming, and the
entry's base name begins with "sd". -/
def sysfsRotationalDisk (e : SysEntry) : Bool :=
  match e.rotational with
  | RotationalAttr.content v =>
    (rustTrim v == "1") && rustStartsWith e.name "sd"
  | _ => false

/-- Rust's `collect::<Result<Vec<_>, _>>()`: the first `Err` aborts,
otherwise all `Ok` payloads are gathered in order. -/
def collectResults : List (Except Unit String) → Except Unit (List String)
  | [] => .ok []
  | .error e :: _ => .error e
  | .ok v :: rest => (collectResults rest).map (fun l => v :: l)

/-- `metrics.rs::get_all_disks`, after `read_dir` listed the entries of
`<sysfs>/block` (a listing failure is out of scope of the claims):
`filter_map(filter_map_disk)` then `collect` into a `Result`. -/
def get_all_disks (entries : List SysEntry) : Except Unit (List String) :=
  collectResults (entries.filterMap filter_map_disk)

/-- The state of the `disk_status` `GaugeVec`: for each `disk` label value,
the gauge's current value if that labelled child was ever set. -/
abbrev Registry : Type := String → Option ℚ

/-- `self.disk_status.with_label_values(&[&disk]).set(status)`: create the
labelled gauge child if absent and set it to `status`. -/
def setGauge (reg : Registry) (disk : String) (status : ℚ) : Registry :=
  fun x => if x = disk then some status else reg x

/-- The `for disk in all_disks` loop of `DiskMonitor::update_metrics`: probe
each disk; a probe error aborts via `?` but leaves the gauges already set in
place (the registry lives in `&self`); `Ok(None)` sets nothing; `Ok(Some
status)` sets that disk's gauge. -/
def updateLoop (probe : String → Except Unit (Option ℚ)) :
    Registry → List String → Registry × Except Unit Unit
  | reg, [] => (reg, .ok ())
  | reg, disk :: rest =>
    match probe disk with
    | .error e => (reg, .error e)
    | .ok none => updateLoop probe reg rest
    | .ok (some status) => updateLoop probe (setGauge reg disk status) rest

/-- `metrics.rs::DiskMonitor::update_metrics` up to its registry effect:
enumerate disks from sysfs (a failure aborts via `?` with the registry
untouched), then run the update loop. The trailing `write_textfile` call
serializes the registry but never mutates it, so it is omitted here. -/
def update_metrics (probe : String → Except Unit (Option ℚ))
    (entries : List SysEntry) (reg : Registry) :
    Registry × Except Unit Unit :=
  match get_all_disks entries with
  | .error e => (reg, .error e)
  | .ok disks => updateLoop probe reg disks

end Metrics

/-- Delivering the same `DiskStatus { disk, status }` update to the registry
`n` times: each delivery performs the `with_label_values(&[&disk]).set(status)`
write of `DiskMonitor::update_metrics`. -/
def applyUpdateN : ℕ → Metrics.Registry → String → ℚ → Metrics.Registry
  | 0, reg, _, _ => reg
  | n + 1, reg, disk, status =>
    applyUpdateN n (Metrics.setGauge reg disk status) disk status

/-! ## Exporter serialization -/

namespace Exporter

/-- Modelled from the spec: a snapshot of the aggregator's MetricsRegistry.
The aggregator (`Metrics` / `MetricMessage` with the `notify_events`
counter, referenced by `main.rs` and `watch.rs`) is not among the source
files; per spec §3 the registry owns a gauge family keyed by DeviceId and a
single monotonically increasing event counter. -/
structure Snapshot where
  gauges : List (String × ℚ)
  counter : ℕ
deriving DecidableEq, Repr

/-- Modelled from the spec: exposition-format number rendering, "without
unnecessary trailing zero decimals (e.g., 0, 1, 3)"; an integral value is
rendered as its integer numerator. (Non-integral values do not occur: gauge
samples are 0 or 1.) -/
def renderValue (v : ℚ) : String :=
  if v.den = 1 then toString v.num else toString v

/-- Modelled from the spec: gauge samples are emitted "sorted by DeviceId
ascending (lexicographic)". -/
def sortGauges (gauges : List (String × ℚ)) : List (String × ℚ) :=
  List.insertionSort (fun a b => strLe a.1 b.1 = true) gauges

/-- Modelled from the spec: one gauge sample line,
`name{label="value"} number`. -/
def sampleLine (g : String × ℚ) : String :=
  "disk_status\x7bdisk=\"" ++ g.1 ++ "\"\x7d " ++ renderValue g.2 ++ "\n"

/-- Modelled from the spec (§4.4 and the §8 scenario): serialize a registry
snapshot in the fixed declared family order — the `disk_status` gauge family
(one HELP line, one TYPE line, one sample line per key, sorted by DeviceId),
then the `notify_events` counter family (HELP, TYPE, one sample). -/
def serialize (snap : Snapshot) : String :=
  "# HELP disk_status Status of the disk (1=active, 0=standby)\n" ++
  "# TYPE disk_status gauge\n" ++
  String.join ((sortGauges snap.gauges).map sampleLine) ++
  "# HELP notify_events Number of events for watched directories\n" ++
  "# TYPE notify_events counter\n" ++
  "notify_events " ++ toString snap.counter ++ "\n"

end Exporter

/-! ## Deterministic test fixtures (analogues of the repository's
`FakeHdparm` / `FakeLsblk` test doubles) -/

/-- A probe that answers `Unknown` for every disk. -/
def probeUnknown : String → Except Unit (Option ℚ) :=
  fun _ => .ok none

/-- A probe that answers `Standby` (`0.0`) for every disk, like the
repository's `FakeHdparm`. -/
def probeStandby : String → Except Unit (Option ℚ) :=
  fun _ => .ok (some 0)

/-- A channel whose `send` always succeeds. -/
def sendOk : DiskStatusMsg → Except Unit Unit :=
  fun _ => .ok ()

/-- A registry that already holds the known value `1.0` (Active) for
`/dev/sda`. -/
def regSdaActive : Metrics.Registry :=
  fun x => if x = "/dev/sda" then some 1 else none

/-- A cycle environment whose lsblk listing fails, making
`update_disk_status` fail at its first step. -/
def failingCycle : CycleEnv :=
  ⟨.error (), probeStandby, sendOk⟩

/-- A cycle environment that succeeds and sends one Standby message for
`/dev/sda` (the repository's own `it_works` scenario for `lsblk.rs`). -/
def okCycle : CycleEnv :=
  ⟨.ok [⟨"sda", "disk", true⟩, ⟨"sr0", "rom", true⟩], probeStandby, sendOk⟩

/-! ## Helper lemmas -/

theorem rootMatches_iff (ps : List FsPath) (b : FsPath) :
    rootMatches ps b = true ↔ ∃ p ∈ ps, b <+: p := by
  simp [rootMatches, List.any_eq_true, List.isPrefixOf_iff_prefix]

theorem filterDisk_eq (d : Disk) :
    Lsblk.filterDisk d =
      if d.rota && (d.disk_type == "disk") then some ("/dev/" ++ d.name)
      else none := by
  unfold Lsblk.filterDisk
  split
  · simp_all
  · split <;> simp_all

theorem setGauge_setGauge (reg : Metrics.Registry) (d : String) (v : ℚ) :
    Metrics.setGauge (Metrics.setGauge reg d v) d v = Metrics.setGauge reg d v := by
  funext x
  unfold Metrics.setGauge
  by_cases h : x = d <;> simp [h]

theorem applyUpdateN_succ (n : ℕ) (reg : Metrics.Registry) (d : String) (v : ℚ) :
    applyUpdateN (n + 1) reg d v = Metrics.setGauge reg d v := by
  induction n generalizing reg with
  | zero => rfl
  | succ m ih =>
    show applyUpdateN (m + 1) (Metrics.setGauge reg d v) d v = _
    rw [ih (Metrics.setGauge reg d v), setGauge_setGauge]

theorem send_statuses_skips_unknown
    (probe : String → Except Unit (Option ℚ)) (send : DiskStatusMsg → Except Unit Unit)
    (disks : List String) (d : String) (h : probe d = .ok none) :
    ∀ m ∈ (send_statuses probe send disks).1, m.disk ≠ d := by
  induction disks with
  | nil => intro m hm; cases hm
  | cons disk rest ih =>
    intro m hm
    unfold send_statuses at hm
    cases hp : probe disk with
    | error e => rw [hp] at hm; cases hm
    | ok st =>
      rw [hp] at hm
      cases st with
      | none => exact ih m hm
      | some v =>
        dsimp only at hm
        cases hs : send ⟨disk, v⟩ with
        | error e => rw [hs] at hm; cases hm
        | ok u =>
          rw [hs] at hm
          dsimp only at hm
          rcases List.mem_cons.1 hm with h1 | h2
          · subst h1
            intro hd
            have hd' : disk = d := hd
            rw [hd', h] at hp
            simp at hp
          · exact ih m h2

theorem updateLoop_preserves_unknown
    (probe : String → Except Unit (Option ℚ)) (disks : List String)
    (reg : Metrics.Registry) (d : String) (h : probe d = .ok none) :
    (Metrics.updateLoop probe reg disks).1 d = reg d := by
  induction disks generalizing reg with
  | nil => rfl
  | cons disk rest ih =>
    unfold Metrics.updateLoop
    cases hp : probe disk with
    | error e => rfl
    | ok st =>
      cases st with
      | none => exact ih reg
      | some v =>
        rw [ih (Metrics.setGauge reg disk v)]
        unfold Metrics.setGauge
        by_cases hx : d = disk
        · subst hx; rw [h] at hp; cases hp
        · simp [hx]

theorem filter_map_disk_eq (e : Metrics.SysEntry)
    (he : e.rotational ≠ Metrics.RotationalAttr.readError) :
    Metrics.filter_map_disk e =
      if Metrics.sysfsRotationalDisk e then some (.ok ("/dev/" ++ e.name))
      else none := by
  unfold Metrics.filter_map_disk Metrics.sysfsRotationalDisk
  cases hrot : e.rotational with
  | missing => rfl
  | readError => exact absurd hrot he
  | content v =>
    dsimp only
    split
    · rename_i hv
      simp [hv]
    · rename_i hv
      cases hsw : rustStartsWith e.name "sd" <;> simp [hv, hsw]
    · rename_i hv0 hv1
      have hne : (rustTrim v == "1") = false := by
        simpa using hv1
      simp [hne]

theorem hdparm_ok_of_success (o : CmdOutput) (hs : o.success = true) :
    hdparm_get_disk_status (.ok o) =
      .ok (if strContains o.stdout "standby" then some 0
           else if strContains o.stdout "active/idle" then some 1
           else none) := by
  unfold hdparm_get_disk_status
  dsimp only
  rw [hs]
  by_cases h1 : strContains o.stdout "standby" <;>
    by_cases h2 : strContains o.stdout "active/idle" <;>
    simp [h1, h2]

theorem leChars_total (as bs : List Char) :
    leChars as bs = true ∨ leChars bs as = true := by
  induction as generalizing bs with
  | nil => left; rfl
  | cons a as ih =>
    cases bs with
    | nil => right; rfl
    | cons b bs =>
      unfold leChars
      rcases lt_trichotomy a b with h | h | h
      · left; simp [h]
      · subst h; simpa [lt_irrefl] using ih bs
      · right; simp [h, not_lt_of_gt h]

theorem leChars_trans (as bs cs : List Char) (h1 : leChars as bs = true)
    (h2 : leChars bs cs = true) : leChars as cs = true := by
  induction as generalizing bs cs with
  | nil => rfl
  | cons a as ih =>
    cases bs with
    | nil => cases h1
    | cons b bs =>
      cases cs with
      | nil => cases h2
      | cons c cs =>
        unfold leChars at h1 h2 ⊢
        by_cases hab : a < b
        · by_cases hbc : b < c
          · simp [lt_trans hab hbc]
          · by_cases hcb : c < b
            · simp [hab, hbc, hcb] at h2
            · have : b = c := le_antisymm (not_lt.mp hcb) (not_lt.mp hbc)
              subst this
              simp [hab]
        · by_cases hba : b < a
          · simp [hab, hba] at h1
          · have : a = b := le_antisymm (not_lt.mp hba) (not_lt.mp hab)
            subst this
            by_cases hbc : a < c
            · simp [hbc]
            · by_cases hcb : c < a
              · simp [hbc, hcb] at h2
              · have : a = c := le_antisymm (not_lt.mp hcb) (not_lt.mp hbc)
                subst this
                simp [lt_irrefl] at h1 h2 ⊢
                exact ih bs cs h1 h2

theorem leChars_antisymm (as bs : List Char) (h1 : leChars as bs = true)
    (h2 : leChars bs as = true) : as = bs := by
  induction as generalizing bs with
  | nil =>
    cases bs with
    | nil => rfl
    | cons b bs => cases h2
  | cons a as ih =>
    cases bs with
    | nil => cases h1
    | cons b bs =>
      unfold leChars at h1 h2
      by_cases hab : a < b
      · simp [hab, not_lt_of_gt hab] at h2
      · by_cases hba : b < a
        · simp [hab, hba] at h1
        · have : a = b := le_antisymm (not_lt.mp hba) (not_lt.mp hab)
          subst this
          simp [lt_irrefl] at h1 h2
          rw [ih bs h1 h2]

theorem strLe_antisymm (a b : String) (h1 : strLe a b = true)
    (h2 : strLe b a = true) : a = b :=
  String.ext (leChars_antisymm a.data b.data h1 h2)

theorem sortGauges_perm_eq (g₁ g₂ : List (String × ℚ)) (hperm : g₁.Perm g₂)
    (hnd : (g₁.map Prod.fst).Nodup) :
    Exporter.sortGauges g₁ = Exporter.sortGauges g₂ := by
  haveI : IsTotal (String × ℚ) (fun a b => strLe a.1 b.1 = true) :=
    ⟨fun a b => leChars_total a.1.data b.1.data⟩
  haveI : IsTrans (String × ℚ) (fun a b => strLe a.1 b.1 = true) :=
    ⟨fun a b c => leChars_trans a.1.data b.1.data c.1.data⟩
  haveI : IsAntisymm (String × ℚ)
      (fun a b => (strLe a.1 b.1 = true) ∧ a.1 ≠ b.1) :=
    ⟨fun a b hab hba => absurd (strLe_antisymm a.1 b.1 hab.1 hba.1) hab.2⟩
  have hp1 : (Exporter.sortGauges g₁).Perm g₁ :=
    List.perm_insertionSort _ g₁
  have hp2 : (Exporter.sortGauges g₂).Perm g₂ :=
    List.perm_insertionSort _ g₂
  have hp12 : (Exporter.sortGauges g₁).Perm (Exporter.sortGauges g₂) :=
    (hp1.trans hperm).trans hp2.symm
  have hs1 : List.Sorted (fun a b : String × ℚ => strLe a.1 b.1 = true)
      (Exporter.sortGauges g₁) :=
    List.sorted_insertionSort _ g₁
  have hs2 : List.Sorted (fun a b : String × ℚ => strLe a.1 b.1 = true)
      (Exporter.sortGauges g₂) :=
    List.sorted_insertionSort _ g₂
  have hnd2 : (g₂.map Prod.fst).Nodup := ((hperm.map Prod.fst).nodup_iff).mp hnd
  have hnd1' : ((Exporter.sortGauges g₁).map Prod.fst).Nodup :=
    ((hp1.map Prod.fst).nodup_iff).mpr hnd
  have hnd2' : ((Exporter.sortGauges g₂).map Prod.fst).Nodup :=
    ((hp2.map Prod.fst).nodup_iff).mpr hnd2
  have hst1 : List.Sorted
      (fun a b : String × ℚ => (strLe a.1 b.1 = true) ∧ a.1 ≠ b.1)
      (Exporter.sortGauges g₁) :=
    List.Pairwise.and hs1 (List.pairwise_map.mp hnd1')
  have hst2 : List.Sorted
      (fun a b : String × ℚ => (strLe a.1 b.1 = true) ∧ a.1 ≠ b.1)
      (Exporter.sortGauges g₂) :=
    List.Pairwise.and hs2 (List.pairwise_map.mp hnd2')
  exact List.eq_of_perm_of_sorted hp12 hst1 hst2

/-! ## Claim theorems -/

/-- C3: for every list of block-device records returned by the listing
helper, the enumerator's output contains exactly the records whose
rotational flag is true and whose type equals "disk" (as `/dev/{name}`);
every other record is excluded, regardless of its position in the input. -/
theorem lsblk_enumerator_filters_rotational_disks (records : List Disk) :
    Lsblk.get_all_disks records =
      (records.filter (fun d => d.rota && (d.disk_type == "disk"))).map
        (fun d => "/dev/" ++ d.name) := by
  induction records with
  | nil => rfl
  | cons d rest ih =>
    simp only [Lsblk.get_all_disks, List.filterMap_cons, filterDisk_eq,
      List.filter_cons] at ih ⊢
    by_cases h : d.rota && (d.disk_type == "disk") <;> simp [h, ih]

/-- C6: applying the same DiskStatusUpdate (same device, same known state)
to the registry N times, for any N ≥ 1, yields exactly the same final gauge
value for that device as applying it once. -/
theorem disk_status_update_idempotent (n : ℕ) (h : 1 ≤ n)
    (reg : Metrics.Registry) (disk : String) (status : ℚ) :
    applyUpdateN n reg disk status disk =
      applyUpdateN 1 reg disk status disk := by
  cases n with
  | zero => exact absurd h (by omega)
  | succ m => rw [applyUpdateN_succ m, applyUpdateN_succ 0]

theorem disk_status_update_idempotent_witness :
    1 ≤ 3 ∧
      applyUpdateN 3 (fun _ => none) "/dev/sda" 1 "/dev/sda" =
        applyUpdateN 1 (fun _ => none) "/dev/sda" 1 "/dev/sda" :=
  ⟨by decide,
   disk_status_update_idempotent 3 (by decide) (fun _ => none) "/dev/sda" 1⟩

/-- C8: if a probe cycle step fails (device enumeration error, probe
execution error, or channel send error), the probe loop terminates
immediately and permanently: whatever environments follow the failing
cycle, the emitted trace equals the trace of running the loop up to (and
including) the failing cycle only — no retry, no further messages. -/
theorem disk_status_loop_stops_on_error (pre : List CycleEnv)
    (env : CycleEnv) (post : List CycleEnv)
    (h : (update_disk_status env.probe env.send env.lsblk).2 = .error ()) :
    disk_status_loop (pre ++ env :: post) = disk_status_loop (pre ++ [env]) := by
  induction pre with
  | nil =>
    show disk_status_loop (env :: post) = disk_status_loop [env]
    unfold disk_status_loop
    rw [h]
  | cons e pre ih =>
    show disk_status_loop (e :: (pre ++ env :: post)) =
      disk_status_loop (e :: (pre ++ [env]))
    unfold disk_status_loop
    cases (update_disk_status e.probe e.send e.lsblk).2 with
    | error u => rfl
    | ok u => rw [ih]

theorem disk_status_loop_stops_on_error_witness :
    (update_disk_status failingCycle.probe failingCycle.send
        failingCycle.lsblk).2 = .error () ∧
      disk_status_loop ([okCycle] ++ failingCycle :: [okCycle, okCycle]) =
        disk_status_loop ([okCycle] ++ [failingCycle]) :=
  ⟨rfl,
   disk_status_loop_stops_on_error [okCycle] failingCycle [okCycle, okCycle]
    rfl⟩

/-- C9: the resolver called with an empty sequence of affected paths always
fails with a ResolutionError, for every root list; an empty configured-root
list always fails, for every set of affected paths; and it returns a root
(is `Ok`) exactly when some affected path actually starts with some
configured root. -/
theorem match_base_path_edge_cases (base_paths ps : List FsPath) :
    match_base_path base_paths [] = .error ⟨[], base_paths⟩ ∧
    match_base_path [] ps = .error ⟨ps, []⟩ ∧
    ((∃ b, match_base_path base_paths ps = .ok b) ↔
      ∃ b ∈ base_paths, ∃ p ∈ ps, b <+: p) := by
  refine ⟨?_, rfl, ?_⟩
  · unfold match_base_path
    have hnone : List.find? (rootMatches []) base_paths = none :=
      List.find?_eq_none.mpr (fun x _ => by simp [rootMatches])
    rw [hnone]
  · unfold match_base_path
    cases hf : List.find? (rootMatches ps) base_paths with
    | none =>
      constructor
      · rintro ⟨b, hb⟩
        exact Except.noConfusion hb
      · rintro ⟨b, hbmem, hp⟩
        exact absurd ((rootMatches_iff ps b).mpr hp)
          (List.find?_eq_none.mp hf b hbmem)
    | some b0 =>
      constructor
      · rintro ⟨b, hb⟩
        obtain ⟨hpb, l₁, l₂, hbs, hprev⟩ := List.find?_eq_some.mp hf
        refine ⟨b0, ?_, (rootMatches_iff ps b0).mp hpb⟩
        rw [hbs]
        exact List.mem_append_right _ (List.mem_cons_self _ _)
      · intro _
        exact ⟨b0, rfl⟩

/-- C10: for any successful probe whose textual output contains both the
substring "standby" and the substring "active/idle", the probe
deterministically returns Standby (0.0), because the standby check is
performed first. -/
theorem hdparm_standby_checked_first (o : CmdOutput) (hs : o.success = true)
    (h1 : strContains o.stdout "standby" = true)
    (_h2 : strContains o.stdout "active/idle" = true) :
    hdparm_get_disk_status (.ok o) = .ok (some 0) := by
  unfold hdparm_get_disk_status
  simp [hs, h1]

theorem hdparm_standby_checked_first_witness :
    (CmdOutput.mk true "standby active/idle").success = true ∧
    strContains (CmdOutput.mk true "standby active/idle").stdout
      "standby" = true ∧
    strContains (CmdOutput.mk true "standby active/idle").stdout
      "active/idle" = true ∧
    hdparm_get_disk_status (.ok (CmdOutput.mk true "standby active/idle")) =
      .ok (some 0) :=
  ⟨rfl, by decide, by decide,
   hdparm_standby_checked_first _ rfl (by decide) (by decide)⟩

/-- C1: when the probe reports Unknown (`Ok(None)`) for a device, the
producer emits no DiskStatus message for that device, and the registry
update loop leaves that device's gauge value unchanged — so an Unknown
observation never mutates a prior known value in the registry. -/
theorem unknown_probe_preserves_known_gauge
    (probe : String → Except Unit (Option ℚ))
    (send : DiskStatusMsg → Except Unit Unit)
    (lsblk : Except Unit (List Disk)) (entries : List Metrics.SysEntry)
    (reg : Metrics.Registry) (d : String) (h : probe d = .ok none) :
    (∀ m ∈ (update_disk_status probe send lsblk).1, m.disk ≠ d) ∧
    (Metrics.update_metrics probe entries reg).1 d = reg d := by
  constructor
  · unfold update_disk_status
    cases lsblk with
    | error e =>
      intro m hm
      cases hm
    | ok records => exact send_statuses_skips_unknown probe send _ d h
  · unfold Metrics.update_metrics
    cases Metrics.get_all_disks entries with
    | error e => rfl
    | ok disks => exact updateLoop_preserves_unknown probe disks reg d h

theorem unknown_probe_preserves_known_gauge_witness :
    probeUnknown "/dev/sda" = .ok none ∧
    (Metrics.update_metrics probeUnknown
        [⟨"sda", Metrics.RotationalAttr.content "1"⟩] regSdaActive).1
      "/dev/sda" = regSdaActive "/dev/sda" :=
  ⟨rfl,
   (unknown_probe_preserves_known_gauge probeUnknown sendOk (.ok [])
      [⟨"sda", Metrics.RotationalAttr.content "1"⟩] regSdaActive "/dev/sda"
      rfl).2⟩

/-- C4: provided no attribute read fails (the one error path), a sysfs
block entry appears in the strategy-(a) enumerator's output exactly when
its rotational attribute file exists, reads exactly "1" after trimming, and
its base name begins with "sd"; a missing attribute or any other value
excludes the entry without producing an error. -/
theorem sysfs_enumerator_filters (entries : List Metrics.SysEntry)
    (h : ∀ e ∈ entries, e.rotational ≠ Metrics.RotationalAttr.readError) :
    Metrics.get_all_disks entries =
      .ok ((entries.filter Metrics.sysfsRotationalDisk).map
        (fun e => "/dev/" ++ e.name)) := by
  induction entries with
  | nil => rfl
  | cons e rest ih =>
    have he := h e (List.mem_cons_self _ _)
    have hrest : ∀ x ∈ rest,
        x.rotational ≠ Metrics.RotationalAttr.readError :=
      fun x hx => h x (List.mem_cons_of_mem _ hx)
    have ih' := ih hrest
    simp only [Metrics.get_all_disks] at ih' ⊢
    simp only [List.filterMap_cons, filter_map_disk_eq e he, List.filter_cons]
    cases hp : Metrics.sysfsRotationalDisk e with
    | false => simpa [hp] using ih'
    | true =>
      simp only [hp, if_true, Metrics.collectResults, ih']
      rfl

theorem sysfs_enumerator_filters_witness :
    (∀ e ∈ ([⟨"sda", Metrics.RotationalAttr.content "1\n"⟩,
        ⟨"sdb", Metrics.RotationalAttr.content "0\n"⟩,
        ⟨"sr0", Metrics.RotationalAttr.missing⟩,
        ⟨"dm-0", Metrics.RotationalAttr.content "1"⟩] :
          List Metrics.SysEntry),
      e.rotational ≠ Metrics.RotationalAttr.readError) ∧
    Metrics.get_all_disks
        [⟨"sda", Metrics.RotationalAttr.content "1\n"⟩,
         ⟨"sdb", Metrics.RotationalAttr.content "0\n"⟩,
         ⟨"sr0", Metrics.RotationalAttr.missing⟩,
         ⟨"dm-0", Metrics.RotationalAttr.content "1"⟩] =
      .ok ["/dev/sda"] :=
  ⟨by decide,
   by
    rw [sysfs_enumerator_filters _ (by decide)]
    rfl⟩

/-- C5: the power-state probe returns an error exactly when the external
command fails to execute or exits with a non-success status; on a
successful execution it never errors: a recognized output maps to Standby
(0.0) or Active (1.0), and an ambiguous output maps to Unknown (None). -/
theorem hdparm_probe_error_classification (output : Except Unit CmdOutput) :
    ((∃ e, hdparm_get_disk_status output = .error e) ↔
      output = .error () ∨ ∃ o, output = .ok o ∧ o.success = false) ∧
    (∀ o, output = .ok o → o.success = true →
      strContains o.stdout "standby" = true →
      hdparm_get_disk_status output = .ok (some 0)) ∧
    (∀ o, output = .ok o → o.success = true →
      strContains o.stdout "standby" = false →
      strContains o.stdout "active/idle" = true →
      hdparm_get_disk_status output = .ok (some 1)) ∧
    (∀ o, output = .ok o → o.success = true →
      strContains o.stdout "standby" = false →
      strContains o.stdout "active/idle" = false →
      hdparm_get_disk_status output = .ok none) := by
  refine ⟨⟨?_, ?_⟩, ?_, ?_, ?_⟩
  · rintro ⟨e, he⟩
    cases output with
    | error u =>
      cases u
      exact Or.inl rfl
    | ok o =>
      cases hs : o.success with
      | false => exact Or.inr ⟨o, rfl, hs⟩
      | true =>
        rw [hdparm_ok_of_success o hs] at he
        exact Except.noConfusion he
  · rintro (h | ⟨o, ho, hs⟩)
    · subst h
      exact ⟨(), rfl⟩
    · subst ho
      refine ⟨(), ?_⟩
      unfold hdparm_get_disk_status
      dsimp only
      rw [hs]
      rfl
  · intro o ho hs h1
    subst ho
    rw [hdparm_ok_of_success o hs]
    simp [h1]
  · intro o ho hs h1 h2
    subst ho
    rw [hdparm_ok_of_success o hs]
    simp [h1, h2]
  · intro o ho hs h1 h2
    subst ho
    rw [hdparm_ok_of_success o hs]
    simp [h1, h2]

theorem hdparm_probe_error_classification_witness :
    (Except.ok (CmdOutput.mk true "drive state is:  standby") :
        Except Unit CmdOutput) =
      Except.ok (CmdOutput.mk true "drive state is:  standby") ∧
    (CmdOutput.mk true "drive state is:  standby").success = true ∧
    strContains (CmdOutput.mk true "drive state is:  standby").stdout
      "standby" = true ∧
    hdparm_get_disk_status
        (.ok (CmdOutput.mk true "drive state is:  standby")) =
      .ok (some 0) :=
  ⟨rfl, rfl, by decide,
   (hdparm_probe_error_classification
      (.ok (CmdOutput.mk true "drive state is:  standby"))).2.1
     (CmdOutput.mk true "drive state is:  standby") rfl rfl (by decide)⟩

/-- C2: the resolver returns the first configured root, in configuration
order, for which at least one affected path is contained within that root
(component-wise prefix); if no configured root contains any affected path
it returns a ResolutionError carrying the affected paths and the full root
list. -/
theorem match_base_path_first_containing_root
    (base_paths ps : List FsPath) :
    (∀ b, match_base_path base_paths ps = .ok b ↔
      ((∃ p ∈ ps, b <+: p) ∧
        ∃ l₁ l₂, base_paths = l₁ ++ b :: l₂ ∧
          ∀ b' ∈ l₁, ¬∃ p ∈ ps, b' <+: p)) ∧
    ((∀ b ∈ base_paths, ¬∃ p ∈ ps, b <+: p) →
      match_base_path base_paths ps = .error ⟨ps, base_paths⟩) := by
  constructor
  · intro b
    unfold match_base_path
    constructor
    · intro hok
      cases hf : List.find? (rootMatches ps) base_paths with
      | none =>
        rw [hf] at hok
        exact Except.noConfusion hok
      | some b0 =>
        rw [hf] at hok
        have hb : b0 = b := Except.ok.inj hok
        subst hb
        obtain ⟨hpb, l₁, l₂, hbs, hprev⟩ := List.find?_eq_some.mp hf
        refine ⟨(rootMatches_iff ps b0).mp hpb, l₁, l₂, hbs, ?_⟩
        intro b' hb' hex
        have hneg := hprev b' hb'
        rw [Bool.not_eq_eq_eq_not, Bool.not_true] at hneg
        exact absurd ((rootMatches_iff ps b').mpr hex) (by simp [hneg])
    · rintro ⟨hmatch, l₁, l₂, hbs, hprev⟩
      have hf : List.find? (rootMatches ps) base_paths = some b := by
        refine List.find?_eq_some.mpr
          ⟨(rootMatches_iff ps b).mpr hmatch, l₁, l₂, hbs, ?_⟩
        intro a ha
        cases hra : rootMatches ps a with
        | false => rfl
        | true => exact absurd ((rootMatches_iff ps a).mp hra) (hprev a ha)
      rw [hf]
  · intro hnone
    have hf : List.find? (rootMatches ps) base_paths = none :=
      List.find?_eq_none.mpr
        (fun x hx hc => (hnone x hx) ((rootMatches_iff ps x).mp hc))
    unfold match_base_path
    rw [hf]

theorem match_base_path_first_containing_root_witness :
    match_base_path [["a"], ["b"]] [["a", "x.txt"]] = .ok ["a"] ∧
    match_base_path [["a"], ["b"]] [["c", "x.txt"]] =
      .error ⟨[["c", "x.txt"]], [["a"], ["b"]]⟩ :=
  ⟨((match_base_path_first_containing_root [["a"], ["b"]]
      [["a", "x.txt"]]).1 ["a"]).mpr
    ⟨by decide, [], [["b"]], rfl, by decide⟩,
   (match_base_path_first_containing_root [["a"], ["b"]]
      [["c", "x.txt"]]).2 (by decide)⟩

/-- C7: serialization emits the gauge family then the counter family, each
as HELP line, TYPE line, then one sample line per key; gauge samples are
sorted by DeviceId ascending and numbers carry no unnecessary trailing
decimals, so equal registry states produce byte-identical output no matter
the insertion order. The two closed conjuncts pin down the exact emitted
bytes on the spec's scenarios. -/
theorem serialize_deterministic (g₁ g₂ : List (String × ℚ)) (c : ℕ)
    (hperm : g₁.Perm g₂) (hnd : (g₁.map Prod.fst).Nodup) :
    Exporter.serialize ⟨g₁, c⟩ = Exporter.serialize ⟨g₂, c⟩ ∧
    Exporter.serialize ⟨[("/dev/sda", 0)], 3⟩ =
      "# HELP disk_status Status of the disk (1=active, 0=standby)\n" ++
      "# TYPE disk_status gauge\n" ++
      "disk_status\x7bdisk=\"/dev/sda\"\x7d 0\n" ++
      "# HELP notify_events Number of events for watched directories\n" ++
      "# TYPE notify_events counter\n" ++
      "notify_events 3\n" ∧
    Exporter.serialize ⟨[("/dev/sdb", 0), ("/dev/sda", 1)], 0⟩ =
      "# HELP disk_status Status of the disk (1=active, 0=standby)\n" ++
      "# TYPE disk_status gauge\n" ++
      "disk_status\x7bdisk=\"/dev/sda\"\x7d 1\n" ++
      "disk_status\x7bdisk=\"/dev/sdb\"\x7d 0\n" ++
      "# HELP notify_events Number of events for watched directories\n" ++
      "# TYPE notify_events counter\n" ++
      "notify_events 0\n" := by
  refine ⟨?_, by decide, by decide⟩
  unfold Exporter.serialize
  dsimp only
  rw [sortGauges_perm_eq g₁ g₂ hperm hnd]

theorem serialize_deterministic_witness :
    ([("/dev/sdb", (0 : ℚ)), ("/dev/sda", 1)]).Perm
      [("/dev/sda", (1 : ℚ)), ("/dev/sdb", 0)] ∧
    (([("/dev/sdb", (0 : ℚ)), ("/dev/sda", 1)]).map Prod.fst).Nodup ∧
    Exporter.serialize ⟨[("/dev/sdb", 0), ("/dev/sda", 1)], 5⟩ =
      Exporter.serialize ⟨[("/dev/sda", 1), ("/dev/sdb", 0)], 5⟩ :=
  ⟨by decide, by decide,
   (serialize_deterministic _ _ 5 (by decide) (by decide)).1⟩

end DiskSpin
